import Mathlib

/-!
Shallow embedding of the SIWE authentication flow and the Redis-backed
cache / rate-limit layer of the 0xAcademy backend.

Part A embeds the `/auth/nonce` and `/auth/verify` Express handlers
(`src/routes/auth.routes.ts`): the relational store is modelled as lists of
records, `.single()` as a function returning a row only when exactly one row
matches, and the sequential body of the handler as a state-passing function.
The SIWE signature check (`siweMessage.verify`) is an external cryptographic
collaborator; its outcome (`success`, recovered `address`, message `nonce`)
is an input to the embedded handler.  The database insert of a new user can
fail (e.g. unique-constraint violation); that outcome is likewise an input.

Part B (further below) embeds `CacheService` and the cache / rate-limit
middleware over an association-list model of the Redis store.
-/

/-- AppError as raised by the Express handlers: message plus HTTP status. -/
structure AppError where
  message : String
  status : Nat
deriving DecidableEq, Repr

/-- `throw new AppError('Invalid signature', 401)` in the verify handler. -/
def invalidSignatureError : AppError := ⟨"Invalid signature", 401⟩

/-- `throw new AppError('Invalid or expired nonce', 401)` in the verify handler. -/
def invalidOrExpiredNonceError : AppError := ⟨"Invalid or expired nonce", 401⟩

/-- `throw new AppError('Failed to create user', 500)` in the verify handler. -/
def failedToCreateUserError : AppError := ⟨"Failed to create user", 500⟩

/-- `throw new AppError('Authentication failed', 401)` rethrown by the
verify handler's catch-all. -/
def authenticationFailedError : AppError := ⟨"Authentication failed", 401⟩

/-- a row of the `nonces` table: id, owning address (stored lowercased),
nonce value, and `expires_at` (epoch milliseconds). -/
structure NonceRecord where
  id : Nat
  address : String
  nonce : String
  expiresAt : Nat
deriving DecidableEq, Repr

/-- a row of the `users` table (fields relevant to the auth flow). -/
structure UserRecord where
  id : Nat
  walletAddress : String
  createdAt : Nat
  lastLogin : Nat
deriving DecidableEq, Repr

/-- the relational-store state touched by the auth routes. -/
structure AuthDB where
  nonces : List NonceRecord
  users : List UserRecord
deriving DecidableEq, Repr

/-- JavaScript's `String.prototype.toLowerCase()` as used on hex addresses:
character-wise lowercasing. -/
def lowerStr (s : String) : String := ⟨s.data.map Char.toLower⟩

/-- supabase `.single()`: yields a row exactly when the query returned one
row, and an error (here `none`) otherwise. -/
def singleRow {α : Type} (l : List α) : Option α :=
  match l with
  | [x] => some x
  | _ => none

/-- the verify handler's nonce query filter:
`.eq('address', address).eq('nonce', nonce).gt('expires_at', now)`. -/
def nonceMatches (addr nonceVal : String) (now : Nat) (r : NonceRecord) : Bool :=
  r.address == addr && r.nonce == nonceVal && decide (now < r.expiresAt)

/-- the verify handler's nonce SELECT:
`from('nonces').select('*').eq('address', …).eq('nonce', …).gt('expires_at', …).single()`. -/
def lookupNonce (db : List NonceRecord) (addr nonceVal : String) (now : Nat) :
    Option NonceRecord :=
  singleRow (db.filter (nonceMatches addr nonceVal now))

/-- the verify handler's nonce DELETE: `from('nonces').delete().eq('id', nonceData.id)`. -/
def deleteNonce (db : List NonceRecord) (nid : Nat) : List NonceRecord :=
  db.filter (fun r => r.id != nid)

/-- the verify handler's user SELECT:
`from('users').select('*').eq('wallet_address', address).single()`;
the handler discards the error object, so a failed `.single()` is `none`. -/
def lookupUser (users : List UserRecord) (addr : String) : Option UserRecord :=
  singleRow (users.filter (fun u => u.walletAddress == addr))

/-- the `/auth/nonce` handler's successful INSERT: stores the lowercased
address with `expires_at = Date.now() + 10 * 60 * 1000`.  The nonce value
itself comes from `generateNonce()` (random, external) and the row id from
the database; both are parameters here. -/
def issueNonce (db : AuthDB) (address nonceVal : String) (newId now : Nat) : AuthDB :=
  { db with nonces := db.nonces ++ [⟨newId, lowerStr address, nonceVal, now + 600000⟩] }

/-- outcome of `siweMessage.verify({ signature })` as consumed by the
handler: `fields.success`, `fields.data.address`, `fields.data.nonce`. -/
structure SiweFields where
  success : Bool
  address : String
  nonce : String
deriving DecidableEq, Repr

/-- the successful payload of the verify handler (the data bound into the
JWT: user id and wallet address). -/
structure VerifyOk where
  userId : Nat
  address : String
deriving DecidableEq, Repr

/-- the body of the `/auth/verify` handler inside its `try` block, after
`siweMessage.verify` produced `fields`: nonce lookup, nonce delete, user
lookup, first-login insert (which may fail: `insertFails`) or last-login
update, in the source's order.  `newUserId` stands for the id the database
assigns to a freshly inserted user and `now` for `Date.now()` (ms). -/
def verifyInner (fields : SiweFields) (now newUserId : Nat) (insertFails : Bool)
    (db : AuthDB) : Except AppError VerifyOk × AuthDB :=
  if !fields.success then (.error invalidSignatureError, db)
  else
    let address := lowerStr fields.address
    match lookupNonce db.nonces address fields.nonce now with
    | none => (.error invalidOrExpiredNonceError, db)
    | some nrec =>
      let db1 : AuthDB := { db with nonces := deleteNonce db.nonces nrec.id }
      match lookupUser db1.users address with
      | none =>
        if insertFails then (.error failedToCreateUserError, db1)
        else
          let newUser : UserRecord := ⟨newUserId, address, now, now⟩
          (.ok ⟨newUser.id, newUser.walletAddress⟩,
            { db1 with users := db1.users ++ [newUser] })
      | some u =>
        let users' := db1.users.map (fun x =>
          if x.id == u.id then { x with lastLogin := now } else x)
        (.ok ⟨u.id, u.walletAddress⟩, { db1 with users := users' })

/-- the `/auth/verify` handler as seen by the HTTP caller: the catch-all
turns every inner error into `AppError('Authentication failed', 401)`
(database effects performed before the failure are not rolled back). -/
def verifyHandler (fields : SiweFields) (now newUserId : Nat) (insertFails : Bool)
    (db : AuthDB) : Except AppError VerifyOk × AuthDB :=
  match verifyInner fields now newUserId insertFails db with
  | (.error _, db') => (.error authenticationFailedError, db')
  | ok => ok

/-- two concurrent executions of the verify handler's nonce-consumption
segment on the same address+nonce pair, interleaved so that both SELECTs
run before either DELETE (each individual store call is atomic, the
SELECT-then-DELETE sequence is not).  Returns whether each request passed
the nonce check, plus the final table. -/
def consumeRace (db : List NonceRecord) (addr nonceVal : String) (now : Nat) :
    (Bool × Bool) × List NonceRecord :=
  let l1 := lookupNonce db addr nonceVal now
  let l2 := lookupNonce db addr nonceVal now
  let db1 := match l1 with
    | some r => deleteNonce db r.id
    | none => db
  let db2 := match l2 with
    | some r => deleteNonce db1 r.id
    | none => db1
  ((l1.isSome, l2.isSome), db2)

/-!
Part B: `CacheService` (`src/services/cache.service.ts`) over a model of the
Redis store, plus the response-cache middleware
(`src/middleware/cache.middleware.ts`) and the advanced rate limiter
(`src/middleware/advancedRateLimit.middleware.ts`).

The store maps keys to a value with an optional absolute expiry (seconds);
an entry whose expiry has passed is semantically absent, as in Redis.
Values are modelled by `JVal`: the JSON values this code stores — `null`,
booleans, numbers, strings, and the cached-response object
`{ body, status, headers: { 'Content-Type': … } }` built by the cache
middleware.  `JSON.parse ∘ JSON.stringify` is the identity on these, so the
store holds the values themselves.  Store unavailability (`getRedis()`
returning null) and store-call failures land in the same `catch` defaults in
every method, so both are modelled by `avail = false`.
-/

/-- JSON-representable values stored in the cache. -/
inductive JVal where
  | jnull
  | jbool (b : Bool)
  | jnum (n : Int)
  | jstr (s : String)
  | jresp (body : JVal) (status : Nat) (contentType : String)
deriving DecidableEq, Repr

/-- JavaScript truthiness of a `JVal` (`if (cachedResponse)` etc.). -/
def jsTruthy : JVal → Bool
  | .jnull => false
  | .jbool b => b
  | .jnum n => n != 0
  | .jstr s => s != ""
  | .jresp _ _ _ => true

/-- a stored value with its optional absolute expiry time (seconds). -/
structure Entry where
  value : JVal
  expiresAt : Option Nat
deriving DecidableEq, Repr

/-- the Redis store: an association list from keys to entries. -/
abbrev Store := List (String × Entry)

/-- raw lookup of a key's entry, expired or not. -/
def getEntry (s : Store) (k : String) : Option Entry :=
  s.lookup k

/-- whether an entry is still alive at time `now`. -/
def entryLive (e : Entry) (now : Nat) : Bool :=
  match e.expiresAt with
  | none => true
  | some t => decide (now < t)

/-- lookup as Redis sees it: an expired entry counts as absent. -/
def liveEntry (s : Store) (k : String) (now : Nat) : Option Entry :=
  match getEntry s k with
  | some e => if entryLive e now then some e else none
  | none => none

/-- store a key's entry, replacing any previous entry for that key. -/
def setKey (s : Store) (k : String) (e : Entry) : Store :=
  (k, e) :: s.filter (fun p => p.1 != k)

namespace CacheService

/-- `CacheService.get`: returns `null` when Redis is unavailable, on a
thrown store error, on a miss — and the parsed stored value on a hit.  TS
collapses a stored JSON `null` with the miss marker: both are `null`,
i.e. `.jnull` here.  (The `!cached` empty-string check can only fire for
absent keys, since `JSON.stringify` never returns the empty string.) -/
def get (avail : Bool) (s : Store) (k : String) (now : Nat) : JVal :=
  if !avail then .jnull
  else
    match liveEntry s k now with
    | none => .jnull
    | some e => e.value

/-- `CacheService.set`: `redis.setex(key, ttlSeconds, JSON.stringify(value))`;
a no-op when Redis is unavailable or the call throws. -/
def set (avail : Bool) (s : Store) (k : String) (v : JVal) (ttlSeconds now : Nat) : Store :=
  if !avail then s else setKey s k ⟨v, some (now + ttlSeconds)⟩

/-- `CacheService.del`: `redis.del(key)`; a no-op when unavailable. -/
def del (avail : Bool) (s : Store) (k : String) : Store :=
  if !avail then s else s.filter (fun p => p.1 != k)

/-- `CacheService.delPattern`: `redis.keys(pattern)` then `redis.del(...keys)`;
glob matching is performed by the external store, so the pattern enters the
model as its match predicate.  A no-op when Redis is unavailable. -/
def delPattern (avail : Bool) (s : Store) (matchesPat : String → Bool) : Store :=
  if !avail then s else s.filter (fun p => !matchesPat p.1)

/-- `CacheService.exists` (`exists` is reserved in Lean):
`redis.exists(key) === 1`; `false` when unavailable or on error. -/
def existsKey (avail : Bool) (s : Store) (k : String) (now : Nat) : Bool :=
  if !avail then false else (liveEntry s k now).isSome

/-- `CacheService.increment`: `redis.incr(key)` (atomic: absent key becomes 1,
an integer value is bumped, anything else raises and the `catch` returns 0),
then `if (count === 1 && ttlSeconds) await redis.expire(key, ttlSeconds)` —
note the JS truthiness of `ttlSeconds`: an absent or zero TTL never sets an
expiry.  Returns 0 leaving the store unchanged when Redis is unavailable. -/
def increment (avail : Bool) (s : Store) (k : String) (ttlSeconds : Option Nat)
    (now : Nat) : Int × Store :=
  if !avail then (0, s)
  else
    let incRes : Option (Int × Store) :=
      match liveEntry s k now with
      | none => some (1, setKey s k ⟨.jnum 1, none⟩)
      | some e =>
        match e.value with
        | .jnum n => some (n + 1, setKey s k ⟨.jnum (n + 1), e.expiresAt⟩)
        | _ => none
    match incRes with
    | none => (0, s)
    | some (c, s1) =>
      match ttlSeconds with
      | some t => if c == 1 && t != 0 then (c, setKey s1 k ⟨.jnum c, some (now + t)⟩)
                  else (c, s1)
      | none => (c, s1)

/-- `CacheService.ttl`: `redis.ttl(key)` — seconds remaining, `-1` for a key
without expiry, `-2` for an absent (or expired) key, unavailability or error. -/
def ttl (avail : Bool) (s : Store) (k : String) (now : Nat) : Int :=
  if !avail then -2
  else
    match liveEntry s k now with
    | none => -2
    | some e =>
      match e.expiresAt with
      | none => -1
      | some t => (t : Int) - (now : Int)

/-- `CacheService.getOrSet`: `get`, and when the result `!== null`, return it;
otherwise run `fetchFn` (its result is the parameter `fetched`) and `set` it. -/
def getOrSet (avail : Bool) (s : Store) (k : String) (fetched : JVal)
    (ttlSeconds now : Nat) : JVal × Store :=
  let cached := get avail s k now
  if cached != .jnull then (cached, s)
  else (fetched, set avail s k fetched ttlSeconds now)

end CacheService

/-- lexicographic comparison of char sequences by code point, the order
`Array.prototype.sort()` applies to string keys (code-unit comparison;
identical to code-point order on the characters appearing in keys). -/
def charListLeb : List Char → List Char → Bool
  | [], _ => true
  | _ :: _, [] => false
  | c :: cs, d :: ds =>
    if c = d then charListLeb cs ds
    else decide (c.toNat < d.toNat)

/-- string comparison used by the default JS sort on query-parameter keys. -/
def strLeb (a b : String) : Bool := charListLeb a.data b.data

/-- the default cache key generator's query-sorting step:
`Object.keys(req.query).sort()` followed by `req.query[k]` lookups, i.e.
the key/value pairs ordered by key (query objects have distinct keys). -/
def sortQueryPairs (q : List (String × String)) : List (String × String) :=
  List.insertionSort (fun p p' => strLeb p.1 p'.1 = true) q

/-- `defaultKeyGenerator` of the cache middleware:
`cache:{method}:{path}`, then `?k1=v1&k2=v2…` over the key-sorted query
pairs when `includeQueryParams` is set and the query is nonempty, then
`:user:{id}` when `includeUserId` is set and `req.user?.id` is truthy
(in JS an empty-string id is falsy). -/
def defaultKeyGenerator (method path : String) (query : List (String × String))
    (includeQueryParams includeUserId : Bool) (userId : Option String) : String :=
  let key := "cache:" ++ method ++ ":" ++ path
  let key := if includeQueryParams && !query.isEmpty then
      key ++ "?" ++ String.intercalate "&"
        ((sortQueryPairs query).map (fun p => p.1 ++ "=" ++ p.2))
    else key
  match includeUserId, userId with
  | true, some uid => if uid != "" then key ++ ":user:" ++ uid else key
  | _, _ => key

/-- what the downstream handler sends through `res.json(body)`: the body,
the response's current status code, and its Content-Type header. -/
structure HandlerResult where
  statusCode : Nat
  body : JVal
  contentType : String
deriving DecidableEq, Repr

/-- observable outcome of the cache middleware for one request:
pass-through for non-GET methods, a replayed cached response
(`X-Cache: HIT`), or the handler's own response (`X-Cache: MISS`). -/
inductive CacheOutcome where
  | bypass (r : HandlerResult)
  | hit (v : JVal)
  | miss (r : HandlerResult)
deriving DecidableEq, Repr

/-- the `cache(options)` middleware for one request: non-GET requests pass
through untouched; otherwise `CacheService.get(cacheKey)` is consulted and a
truthy cached value is replayed without invoking the handler; on a miss the
handler runs and its `res.json(body)` is intercepted to store
`{ body, status: res.statusCode, headers: { 'Content-Type': … } }` under the
key with the configured TTL.  The cache key (default or custom generator) is
computed at the call site and passed in as `key`. -/
def cacheMiddleware (avail : Bool) (s : Store) (method key : String)
    (ttlSeconds now : Nat) (handler : HandlerResult) : CacheOutcome × Store :=
  if method != "GET" then (.bypass handler, s)
  else
    let cachedResponse := CacheService.get avail s key now
    if jsTruthy cachedResponse then (.hit cachedResponse, s)
    else
      (.miss handler,
        CacheService.set avail s key
          (.jresp handler.body handler.statusCode handler.contentType) ttlSeconds now)

/-- observable outcome of the rate-limit middleware for one request:
whether the request reached the downstream handler, the counter value, the
`X-RateLimit-Remaining` header, and (when blocked) the `Retry-After` value. -/
structure RLResult where
  allowed : Bool
  count : Int
  remaining : Int
  retryAfter : Option Int
deriving DecidableEq, Repr

/-- the `advancedRateLimit(options)` middleware for one request (after key
generation and the `skip` predicate): increments the scoped counter with the
window as TTL, computes `remaining = Math.max(0, max - currentCount)`, and
when `currentCount > max` responds 429 with `Retry-After` taken from the
counter's live TTL, falling back to the window when the TTL lookup is
non-positive; otherwise calls `next()`.  Any internal failure is caught and
the request proceeds (`avail = false` gives count 0, which never blocks). -/
def advancedRateLimit (avail : Bool) (s : Store) (key : String)
    (limit windowSeconds now : Nat) : RLResult × Store :=
  let res := CacheService.increment avail s key (some windowSeconds) now
  let currentCount := res.1
  let s1 := res.2
  let remaining : Int := max 0 ((limit : Int) - currentCount)
  if currentCount > (limit : Int) then
    let t := CacheService.ttl avail s1 key now
    let ra : Int := if t > 0 then t else (windowSeconds : Int)
    (⟨false, currentCount, remaining, some ra⟩, s1)
  else
    (⟨true, currentCount, remaining, none⟩, s1)

/-- a sequence of requests through the rate limiter from the same scope
(same key), at the given times, with an available store. -/
def rlSeq (s : Store) (key : String) (limit windowSeconds : Nat) :
    List Nat → List RLResult × Store
  | [] => ([], s)
  | t :: ts =>
    let r := advancedRateLimit true s key limit windowSeconds t
    let rest := rlSeq r.2 key limit windowSeconds ts
    (r.1 :: rest.1, rest.2)

/-! Helper lemmas about the store model. -/

/-- writing a key then reading it back finds the written entry. -/
theorem getEntry_setKey_same (s : Store) (k : String) (e : Entry) :
    getEntry (setKey s k e) k = some e := by
  simp [getEntry, setKey, List.lookup]

/-- overwriting a key twice keeps only the second write. -/
theorem setKey_setKey (s : Store) (k : String) (e₀ e₁ : Entry) :
    setKey (setKey s k e₀) k e₁ = setKey s k e₁ := by
  simp only [setKey, List.filter_cons, bne_self_eq_false, Bool.false_eq_true, if_false,
    List.filter_filter, Bool.and_self]

/-- a key written by `setKey` is live while its expiry has not passed. -/
theorem liveEntry_setKey_same (s : Store) (k : String) (v : JVal) (x now : Nat)
    (h : now < x) : liveEntry (setKey s k ⟨v, some x⟩) k now = some ⟨v, some x⟩ := by
  simp [liveEntry, getEntry_setKey_same, entryLive, h]

/-- C2: the verify handler consumes a nonce with a SELECT followed by a
separate DELETE; the two are not atomic.  In the interleaving where both
concurrent requests run their SELECT before either DELETE (every individual
store call atomic), both requests pass the nonce check on the same
address+nonce pair — evaluated here on a one-nonce table — so "at most one
of them succeeds" fails on the code. -/
theorem consumeRaceBothSucceed :
    consumeRace [⟨1, "0xab", "n1", 100⟩] "0xab" "n1" 5 = ((true, true), []) := by
  decide

/-- C8: with the store unreachable (or any store call failing — both land in
the same `catch` defaults), every `CacheService` operation degrades to a
no-op or a miss, and the rate limiter lets the request through with the
store unchanged.  Each modelled operation is total (returns a plain value,
never an error), so no store failure reaches the caller as a request
failure. -/
theorem cacheServiceFailsOpenWhenStoreUnavailable :
    ∀ (s : Store) (k : String) (v fetched : JVal) (ttlN now limit window : Nat)
      (ttlArg : Option Nat) (matchesPat : String → Bool),
    CacheService.get false s k now = .jnull
    ∧ CacheService.set false s k v ttlN now = s
    ∧ CacheService.del false s k = s
    ∧ CacheService.delPattern false s matchesPat = s
    ∧ CacheService.existsKey false s k now = false
    ∧ CacheService.increment false s k ttlArg now = (0, s)
    ∧ CacheService.ttl false s k now = -2
    ∧ CacheService.getOrSet false s k fetched ttlN now = (fetched, s)
    ∧ (advancedRateLimit false s k limit window now).1.allowed = true
    ∧ (advancedRateLimit false s k limit window now).2 = s := by
  intro s k v fetched ttlN now limit window ttlArg matchesPat
  have hinc : CacheService.increment false s k (some window) now = (0, s) := rfl
  have hc : ¬((0 : Int) > (limit : Int)) := by omega
  refine ⟨rfl, rfl, rfl, rfl, rfl, rfl, rfl, rfl, ?_, ?_⟩ <;>
    simp [advancedRateLimit, hinc, hc]

/-- C3, counterexample: the overridden `res.json` caches whatever the handler
sends, with no check of the status code.  A handler responding 404 on a cache
miss is stored under the key — the claim says a non-success response is never
stored. -/
theorem cacheMiddlewareStoresNotFound :
    cacheMiddleware true [] "GET" "k" 300 0 ⟨404, .jstr "not found", "application/json"⟩
    = (.miss ⟨404, .jstr "not found", "application/json"⟩,
       [("k", ⟨.jresp (.jstr "not found") 404 "application/json", some 300⟩)]) := by
  decide

/-- C3, amended: on a cache miss of a GET request with the store available,
the middleware stores the serialized body, the response's status code and its
Content-Type under the derived key with the configured TTL for *every*
handler response — success or not; the status code is never inspected. -/
theorem cacheMiddlewareStoresAnyStatusOnMiss (s : Store) (key : String)
    (ttlSeconds now : Nat) (handler : HandlerResult)
    (hmiss : jsTruthy (CacheService.get true s key now) = false) :
    cacheMiddleware true s "GET" key ttlSeconds now handler
    = (.miss handler,
       setKey s key ⟨.jresp handler.body handler.statusCode handler.contentType,
         some (now + ttlSeconds)⟩) := by
  simp [cacheMiddleware, CacheService.set, hmiss]

/-- C3, witness for the amended theorem at a concrete input. -/
theorem cacheMiddlewareStoresAnyStatusOnMiss_witness :
    jsTruthy (CacheService.get true [] "k" 0) = false
    ∧ cacheMiddleware true [] "GET" "k" 300 0 ⟨500, .jstr "boom", "application/json"⟩
      = (.miss ⟨500, .jstr "boom", "application/json"⟩,
         setKey [] "k" ⟨.jresp (.jstr "boom") 500 "application/json", some (0 + 300)⟩) :=
  ⟨by decide, cacheMiddlewareStoresAnyStatusOnMiss [] "k" 300 0
    ⟨500, .jstr "boom", "application/json"⟩ (by decide)⟩


/-- a live entry implies the raw entry is present and identical. -/
theorem getEntry_of_liveEntry (s : Store) (k : String) (now : Nat) (e : Entry)
    (h : liveEntry s k now = some e) : getEntry s k = some e := by
  unfold liveEntry at h
  rcases hge : getEntry s k with _ | e₂ <;> rw [hge] at h
  · exact absurd h (by simp)
  · by_cases hlive : entryLive e₂ now = true <;> simp [hlive] at h <;> simp [h]

/-- C6, counterexample: `increment` guards the expiry with
`if (count === 1 && ttlSeconds)`, and in JavaScript `ttlSeconds = 0` is
falsy.  A call with TTL argument 0 that creates the counter returns count 1
yet sets no expiry — refuting "for every call with a TTL argument, the TTL
is set iff the returned count is 1". -/
theorem incrementZeroTtlNeverSetsExpiry :
    CacheService.increment true [] "k" (some 0) 7 = (1, [("k", ⟨.jnum 1, none⟩)]) := by
  decide

/-- C6, amended: for every call to `increment` with a *nonzero* TTL argument
on an available store, the key's expiry is set to now + ttl exactly when the
returned count is 1 (the increment that created — or revived — the counter),
and any later increment within the window (count ≠ 1) leaves the stored
expiry unchanged. -/
theorem incrementSetsTtlIffFirst (s : Store) (k : String) (t now : Nat)
    (ht : t ≠ 0) :
    ((CacheService.increment true s k (some t) now).1 = 1 →
      getEntry (CacheService.increment true s k (some t) now).2 k
        = some ⟨.jnum 1, some (now + t)⟩)
    ∧ ((CacheService.increment true s k (some t) now).1 ≠ 1 →
      (getEntry (CacheService.increment true s k (some t) now).2 k).map Entry.expiresAt
        = (getEntry s k).map Entry.expiresAt) := by
  have htb : (t != 0) = true := by simpa [bne_iff_ne] using ht
  rcases hl : liveEntry s k now with _ | ⟨v, ex⟩
  · -- no live counter: INCR creates it with value 1, then expire runs
    have h0 : CacheService.increment true s k (some t) now
        = (1, setKey s k ⟨.jnum 1, some (now + t)⟩) := by
      simp [CacheService.increment, hl, htb, setKey_setKey]
    rw [h0]
    exact ⟨fun _ => getEntry_setKey_same s k _, fun hne => absurd rfl hne⟩
  · have hex : getEntry s k = some ⟨v, ex⟩ := getEntry_of_liveEntry s k now _ hl
    cases v with
    | jnum n =>
      by_cases hz : n + 1 = 1
      · have h0 : CacheService.increment true s k (some t) now
            = (1, setKey s k ⟨.jnum 1, some (now + t)⟩) := by
          simp [CacheService.increment, hl, hz, htb, setKey_setKey]
        rw [h0]
        exact ⟨fun _ => getEntry_setKey_same s k _, fun hne => absurd rfl hne⟩
      · have hzb : ((n + 1 : Int) == 1) = false := by
          simpa [beq_eq_false_iff_ne] using hz
        have h0 : CacheService.increment true s k (some t) now
            = (n + 1, setKey s k ⟨.jnum (n + 1), ex⟩) := by
          simp [CacheService.increment, hl, hzb]
        rw [h0]
        refine ⟨fun h1 => absurd h1 hz, fun _ => ?_⟩
        rw [getEntry_setKey_same, hex]
        rfl
    | jnull =>
      have h0 : CacheService.increment true s k (some t) now = (0, s) := by
        simp [CacheService.increment, hl]
      rw [h0]
      exact ⟨fun h1 => absurd (show (0 : Int) = 1 from h1) (by decide), fun _ => rfl⟩
    | jbool b =>
      have h0 : CacheService.increment true s k (some t) now = (0, s) := by
        simp [CacheService.increment, hl]
      rw [h0]
      exact ⟨fun h1 => absurd (show (0 : Int) = 1 from h1) (by decide), fun _ => rfl⟩
    | jstr s2 =>
      have h0 : CacheService.increment true s k (some t) now = (0, s) := by
        simp [CacheService.increment, hl]
      rw [h0]
      exact ⟨fun h1 => absurd (show (0 : Int) = 1 from h1) (by decide), fun _ => rfl⟩
    | jresp b st ct =>
      have h0 : CacheService.increment true s k (some t) now = (0, s) := by
        simp [CacheService.increment, hl]
      rw [h0]
      exact ⟨fun h1 => absurd (show (0 : Int) = 1 from h1) (by decide), fun _ => rfl⟩

/-- C6, witness for the amended theorem at a concrete input. -/
theorem incrementSetsTtlIffFirst_witness :
    (60 : Nat) ≠ 0
    ∧ (((CacheService.increment true [] "k" (some 60) 5).1 = 1 →
        getEntry (CacheService.increment true [] "k" (some 60) 5).2 "k"
          = some ⟨.jnum 1, some (5 + 60)⟩)
      ∧ ((CacheService.increment true [] "k" (some 60) 5).1 ≠ 1 →
        (getEntry (CacheService.increment true [] "k" (some 60) 5).2 "k").map Entry.expiresAt
          = (getEntry ([] : Store) "k").map Entry.expiresAt)) :=
  ⟨by decide, incrementSetsTtlIffFirst [] "k" 60 5 (by decide)⟩

/-- C9, counterexample: `set` stores `JSON.stringify(null) = "null"` and
`get` returns `JSON.parse("null") = null`, the very value that also marks a
miss.  Concretely: after storing `null` under "k" with a 300s TTL at time 0,
reading "k" at time 10 (TTL unexpired) returns exactly what reading the
absent key "k" of the empty store returns — the two are not distinguishable,
refuting the claim. -/
theorem storedNullReadsAsMiss :
    CacheService.get true (CacheService.set true [] "k" .jnull 300 0) "k" 10
    = CacheService.get true ([] : Store) "k" 10 := by
  decide

/-- C9, amended: a stored `null` is *conflated* with a miss: while its TTL is
unexpired, reading the key returns `null`, identical to reading an absent
key; consequently `getOrSet` treats the stored `null` as a miss and runs its
fetch function again. -/
theorem storedNullIndistinguishableFromMiss (s : Store) (k k₂ : String)
    (ttlSeconds now now₂ fetchTtl : Nat) (fetched : JVal)
    (hlive : now₂ < now + ttlSeconds)
    (habsent : getEntry s k₂ = none) :
    CacheService.get true (CacheService.set true s k .jnull ttlSeconds now) k now₂ = .jnull
    ∧ CacheService.get true s k₂ now₂ = .jnull
    ∧ CacheService.getOrSet true (CacheService.set true s k .jnull ttlSeconds now) k
        fetched fetchTtl now₂
      = (fetched,
         CacheService.set true (CacheService.set true s k .jnull ttlSeconds now) k
           fetched fetchTtl now₂) := by
  have hget : CacheService.get true (CacheService.set true s k .jnull ttlSeconds now) k now₂
      = .jnull := by
    simp [CacheService.get, CacheService.set, liveEntry_setKey_same, hlive]
  refine ⟨hget, ?_, ?_⟩
  · simp [CacheService.get, liveEntry, habsent]
  · simp [CacheService.getOrSet, hget]

/-- C9, witness for the amended theorem at a concrete input. -/
theorem storedNullIndistinguishableFromMiss_witness :
    (10 : Nat) < 0 + 300
    ∧ getEntry ([] : Store) "x" = none
    ∧ (CacheService.get true (CacheService.set true [] "k" .jnull 300 0) "k" 10 = .jnull
      ∧ CacheService.get true ([] : Store) "x" 10 = .jnull
      ∧ CacheService.getOrSet true (CacheService.set true [] "k" .jnull 300 0) "k"
          (.jstr "fresh") 60 10
        = (.jstr "fresh",
           CacheService.set true (CacheService.set true [] "k" .jnull 300 0) "k"
             (.jstr "fresh") 60 10)) :=
  ⟨by decide, by decide,
    storedNullIndistinguishableFromMiss [] "k" "x" 300 0 10 60 (.jstr "fresh")
      (by decide) (by decide)⟩

/-- C4, counterexample: with a valid signature, a valid nonce and no user
row for the address, an insert failure (`createError`, e.g. the unique
constraint firing for the loser of a provisioning race) makes the handler
throw `AppError('Failed to create user', 500)` — surfaced to the caller by
the catch-all as `Authentication failed` (401).  There is no fallback
re-read: the operation does not complete successfully, refuting the claim. -/
theorem verifyInsertFailureIsSurfaced :
    (verifyInner ⟨true, "0xAB", "N1"⟩ 5 7 true ⟨[⟨1, "0xab", "N1", 100⟩], []⟩).1
      = .error failedToCreateUserError
    ∧ (verifyHandler ⟨true, "0xAB", "N1"⟩ 5 7 true ⟨[⟨1, "0xab", "N1", 100⟩], []⟩).1
      = .error authenticationFailedError := by
  constructor <;> rfl

/-- C4, amended: whenever first-login provisioning reaches the insert and
the insert fails, `verifyInner` fails with `Failed to create user` (500) and
the route responds `Authentication failed` (401); the failure is always
surfaced, never recovered by re-reading the user record. -/
theorem verifyInsertFailureNoRecovery (fields : SiweFields) (now newUserId : Nat)
    (db : AuthDB) (nrec : NonceRecord)
    (hs : fields.success = true)
    (hn : lookupNonce db.nonces (lowerStr fields.address) fields.nonce now = some nrec)
    (hu : lookupUser db.users (lowerStr fields.address) = none) :
    (verifyInner fields now newUserId true db).1 = .error failedToCreateUserError
    ∧ (verifyHandler fields now newUserId true db).1 = .error authenticationFailedError := by
  have hinner : verifyInner fields now newUserId true db
      = (.error failedToCreateUserError,
         { db with nonces := deleteNonce db.nonces nrec.id }) := by
    simp [verifyInner, hs, hn, hu]
  exact ⟨by rw [hinner], by simp [verifyHandler, hinner]⟩

/-- C4, witness for the amended theorem at a concrete input. -/
theorem verifyInsertFailureNoRecovery_witness :
    (true : Bool) = true
    ∧ lookupNonce [⟨1, "0xab", "N1", 100⟩] (lowerStr "0xAB") "N1" 5
        = some ⟨1, "0xab", "N1", 100⟩
    ∧ lookupUser [] (lowerStr "0xAB") = none
    ∧ ((verifyInner ⟨true, "0xAB", "N1"⟩ 5 7 true ⟨[⟨1, "0xab", "N1", 100⟩], []⟩).1
        = .error failedToCreateUserError
      ∧ (verifyHandler ⟨true, "0xAB", "N1"⟩ 5 7 true ⟨[⟨1, "0xab", "N1", 100⟩], []⟩).1
        = .error authenticationFailedError) :=
  ⟨rfl, by decide, by decide,
    verifyInsertFailureNoRecovery ⟨true, "0xAB", "N1"⟩ 5 7
      ⟨[⟨1, "0xab", "N1", 100⟩], []⟩ ⟨1, "0xab", "N1", 100⟩ rfl (by decide) (by decide)⟩


/-- a nonce that fails the match filter at one time also fails it at any
later time (expiry only shrinks the match set). -/
theorem nonceMatches_mono (addr nv : String) (t t' : Nat) (htt : t ≤ t')
    (r : NonceRecord) (h : nonceMatches addr nv t r = false) :
    nonceMatches addr nv t' r = false := by
  rcases h1 : (r.address == addr) with _ | _ <;>
    rcases h2 : (r.nonce == nv) with _ | _ <;>
      simp [nonceMatches, h1, h2] at h ⊢ <;> omega

/-- looking up a just-issued nonce (fresh row, pair unique and unexpired)
finds exactly that row. -/
theorem lookupNonce_fresh_issued (ns : List NonceRecord) (a nv : String)
    (newId t0 t1 : Nat)
    (hnodup : ∀ r ∈ ns, nonceMatches a nv t1 r = false)
    (ht1 : t1 < t0 + 600000) :
    lookupNonce (ns ++ ([⟨newId, a, nv, t0 + 600000⟩] : List NonceRecord)) a nv t1
      = some ⟨newId, a, nv, t0 + 600000⟩ := by
  have hmatch : nonceMatches a nv t1 ⟨newId, a, nv, t0 + 600000⟩ = true := by
    simp [nonceMatches, ht1]
  rw [lookupNonce, List.filter_append]
  rw [List.filter_eq_nil_iff.mpr (fun r hr => by simp [hnodup r hr])]
  have h2 : List.filter (nonceMatches a nv t1)
      ([⟨newId, a, nv, t0 + 600000⟩] : List NonceRecord)
      = [⟨newId, a, nv, t0 + 600000⟩] := by
    simp [List.filter, hmatch]
  rw [h2, List.nil_append]
  rfl

/-- deleting a just-issued nonce by its fresh row id removes exactly it. -/
theorem deleteNonce_fresh_issued (ns : List NonceRecord) (a nv : String)
    (newId t0 : Nat) (hfresh : ∀ r ∈ ns, r.id ≠ newId) :
    deleteNonce (ns ++ ([⟨newId, a, nv, t0 + 600000⟩] : List NonceRecord)) newId = ns := by
  rw [deleteNonce, List.filter_append]
  rw [List.filter_eq_self.mpr (fun r hr => by simp [bne_iff_ne, hfresh r hr])]
  have h2 : List.filter (fun r => r.id != newId)
      ([⟨newId, a, nv, t0 + 600000⟩] : List NonceRecord) = [] := by
    simp
  rw [h2, List.append_nil]

/-- a table with no match for the pair at time t has none at any t' ≥ t. -/
theorem lookupNonce_none_later (ns : List NonceRecord) (a nv : String) (t1 t2 : Nat)
    (ht12 : t1 ≤ t2)
    (hnodup : ∀ r ∈ ns, nonceMatches a nv t1 r = false) :
    lookupNonce ns a nv t2 = none := by
  rw [lookupNonce]
  rw [List.filter_eq_nil_iff.mpr (fun r hr => by
    simp [nonceMatches_mono a nv t1 t2 ht12 r (hnodup r hr)])]
  rfl

/-- C1: issuing a nonce and then immediately consuming it through the verify
flow with the matching address+nonce (valid signature, unexpired, the pair
unique in the table, fresh row id) succeeds and removes the nonce row; a
second sequential consumption attempt with the same pair — at any later
time, whatever the user table then holds — fails with
`Invalid or expired nonce`. -/
theorem siweNonceSingleUse (db : AuthDB) (reqAddr nonceVal : String)
    (newId t0 t1 t2 newUserId newUserId₂ : Nat) (insertFails₂ : Bool)
    (fields : SiweFields)
    (hs : fields.success = true)
    (haddr : lowerStr fields.address = lowerStr reqAddr)
    (hnv : fields.nonce = nonceVal)
    (hfresh : ∀ r ∈ db.nonces, r.id ≠ newId)
    (hnodup : ∀ r ∈ db.nonces, nonceMatches (lowerStr reqAddr) nonceVal t1 r = false)
    (ht1 : t1 < t0 + 600000)
    (ht12 : t1 ≤ t2) :
    (∃ v, (verifyInner fields t1 newUserId false (issueNonce db reqAddr nonceVal newId t0)).1
        = Except.ok v)
    ∧ (verifyInner fields t1 newUserId false (issueNonce db reqAddr nonceVal newId t0)).2.nonces
        = db.nonces
    ∧ (verifyInner fields t2 newUserId₂ insertFails₂
        (verifyInner fields t1 newUserId false (issueNonce db reqAddr nonceVal newId t0)).2).1
        = .error invalidOrExpiredNonceError := by
  have hlook : lookupNonce
      (db.nonces ++ ([⟨newId, lowerStr reqAddr, nonceVal, t0 + 600000⟩] : List NonceRecord))
      (lowerStr fields.address) fields.nonce t1
      = some ⟨newId, lowerStr reqAddr, nonceVal, t0 + 600000⟩ := by
    rw [haddr, hnv]
    exact lookupNonce_fresh_issued db.nonces (lowerStr reqAddr) nonceVal newId t0 t1 hnodup ht1
  have hdel := deleteNonce_fresh_issued db.nonces (lowerStr reqAddr) nonceVal newId t0 hfresh
  have hnonces : (verifyInner fields t1 newUserId false
      (issueNonce db reqAddr nonceVal newId t0)).2.nonces = db.nonces := by
    rcases hu : lookupUser db.users (lowerStr fields.address) with _ | u <;>
      simp [verifyInner, hs, issueNonce, hlook, hdel, hu]
  refine ⟨?_, hnonces, ?_⟩
  · rcases hu : lookupUser db.users (lowerStr fields.address) with _ | u
    · exact ⟨⟨newUserId, lowerStr fields.address⟩,
        by simp [verifyInner, hs, issueNonce, hlook, hdel, hu]⟩
    · exact ⟨⟨u.id, u.walletAddress⟩,
        by simp [verifyInner, hs, issueNonce, hlook, hdel, hu]⟩
  · generalize hdb2 : (verifyInner fields t1 newUserId false
      (issueNonce db reqAddr nonceVal newId t0)).2 = db2
    rw [hdb2] at hnonces
    have hlook2 : lookupNonce db2.nonces (lowerStr fields.address) fields.nonce t2 = none := by
      rw [hnonces, haddr, hnv]
      exact lookupNonce_none_later db.nonces (lowerStr reqAddr) nonceVal t1 t2 ht12 hnodup
    simp [verifyInner, hs, hlook2]


/-- C1, witness at a concrete input: empty tables, nonce issued at time 0
for "0xAB", consumed at time 5, replayed at time 6. -/
theorem siweNonceSingleUse_witness :
    (5 : Nat) < 0 + 600000
    ∧ (5 : Nat) ≤ 6
    ∧ ((∃ v, (verifyInner ⟨true, "0xAB", "N1"⟩ 5 7 false
          (issueNonce ⟨[], []⟩ "0xAB" "N1" 1 0)).1 = Except.ok v)
      ∧ (verifyInner ⟨true, "0xAB", "N1"⟩ 5 7 false
          (issueNonce ⟨[], []⟩ "0xAB" "N1" 1 0)).2.nonces = ([] : List NonceRecord)
      ∧ (verifyInner ⟨true, "0xAB", "N1"⟩ 6 8 false
          (verifyInner ⟨true, "0xAB", "N1"⟩ 5 7 false
            (issueNonce ⟨[], []⟩ "0xAB" "N1" 1 0)).2).1
        = .error invalidOrExpiredNonceError) :=
  ⟨by decide, by decide,
    siweNonceSingleUse ⟨[], []⟩ "0xAB" "N1" 1 0 5 6 7 8 false ⟨true, "0xAB", "N1"⟩
      rfl rfl rfl (by simp) (by simp) (by decide) (by decide)⟩

/-- C10: the verify handler deletes the nonce row *before* the user
lookup/provisioning step and performs no rollback.  When, after a valid
signature and a valid nonce, first-login user creation fails, the error is
returned with the nonce already consumed (the nonce table equals the
pre-issuance table), and a retry of the same signed message — at any later
time, with any insert outcome — fails with `Invalid or expired nonce`. -/
theorem verifyConsumesNonceBeforeUserStep (db : AuthDB) (reqAddr nonceVal : String)
    (newId t0 t1 t2 newUserId newUserId₂ : Nat) (insertFails₂ : Bool)
    (fields : SiweFields)
    (hs : fields.success = true)
    (haddr : lowerStr fields.address = lowerStr reqAddr)
    (hnv : fields.nonce = nonceVal)
    (hfresh : ∀ r ∈ db.nonces, r.id ≠ newId)
    (hnodup : ∀ r ∈ db.nonces, nonceMatches (lowerStr reqAddr) nonceVal t1 r = false)
    (hu : lookupUser db.users (lowerStr fields.address) = none)
    (ht1 : t1 < t0 + 600000)
    (ht12 : t1 ≤ t2) :
    (verifyInner fields t1 newUserId true (issueNonce db reqAddr nonceVal newId t0)).1
      = .error failedToCreateUserError
    ∧ (verifyInner fields t1 newUserId true (issueNonce db reqAddr nonceVal newId t0)).2.nonces
      = db.nonces
    ∧ (verifyInner fields t2 newUserId₂ insertFails₂
        (verifyInner fields t1 newUserId true (issueNonce db reqAddr nonceVal newId t0)).2).1
      = .error invalidOrExpiredNonceError := by
  have hlook : lookupNonce
      (db.nonces ++ ([⟨newId, lowerStr reqAddr, nonceVal, t0 + 600000⟩] : List NonceRecord))
      (lowerStr fields.address) fields.nonce t1
      = some ⟨newId, lowerStr reqAddr, nonceVal, t0 + 600000⟩ := by
    rw [haddr, hnv]
    exact lookupNonce_fresh_issued db.nonces (lowerStr reqAddr) nonceVal newId t0 t1 hnodup ht1
  have hdel := deleteNonce_fresh_issued db.nonces (lowerStr reqAddr) nonceVal newId t0 hfresh
  have hrun : verifyInner fields t1 newUserId true (issueNonce db reqAddr nonceVal newId t0)
      = (.error failedToCreateUserError, ⟨db.nonces, db.users⟩) := by
    simp [verifyInner, hs, issueNonce, hlook, hdel, hu]
  rw [hrun]
  refine ⟨rfl, rfl, ?_⟩
  have hlook2 : lookupNonce (AuthDB.mk db.nonces db.users).nonces
      (lowerStr fields.address) fields.nonce t2 = none := by
    rw [haddr, hnv]
    exact lookupNonce_none_later db.nonces (lowerStr reqAddr) nonceVal t1 t2 ht12 hnodup
  simp [verifyInner, hs, hlook2]

/-- C10, witness at a concrete input: nonce issued at time 0 for "0xAB",
verify at time 5 with a failing user insert, retry at time 6. -/
theorem verifyConsumesNonceBeforeUserStep_witness :
    (5 : Nat) < 0 + 600000
    ∧ (5 : Nat) ≤ 6
    ∧ ((verifyInner ⟨true, "0xAB", "N1"⟩ 5 7 true
          (issueNonce ⟨[], []⟩ "0xAB" "N1" 1 0)).1 = .error failedToCreateUserError
      ∧ (verifyInner ⟨true, "0xAB", "N1"⟩ 5 7 true
          (issueNonce ⟨[], []⟩ "0xAB" "N1" 1 0)).2.nonces = ([] : List NonceRecord)
      ∧ (verifyInner ⟨true, "0xAB", "N1"⟩ 6 8 false
          (verifyInner ⟨true, "0xAB", "N1"⟩ 5 7 true
            (issueNonce ⟨[], []⟩ "0xAB" "N1" 1 0)).2).1
        = .error invalidOrExpiredNonceError) :=
  ⟨by decide, by decide,
    verifyConsumesNonceBeforeUserStep ⟨[], []⟩ "0xAB" "N1" 1 0 5 6 7 8 false
      ⟨true, "0xAB", "N1"⟩ rfl rfl rfl (by simp) (by simp) (by decide)
      (by decide) (by decide)⟩

/-- characters with equal code points are equal. -/
theorem char_toNat_inj {c d : Char} (h : c.toNat = d.toNat) : c = d := by
  apply Char.ext
  exact UInt32.ext h

/-- totality of the key comparison. -/
theorem charListLeb_total : ∀ a b, charListLeb a b = true ∨ charListLeb b a = true := by
  intro a
  induction a with
  | nil => intro b; left; rfl
  | cons c cs ih =>
    intro b
    cases b with
    | nil => right; rfl
    | cons d ds =>
      by_cases hcd : c = d
      · subst hcd
        simp only [charListLeb, if_pos rfl]
        exact ih ds
      · have hdc : d ≠ c := fun h => hcd h.symm
        have hne : c.toNat ≠ d.toNat := fun h => hcd (char_toNat_inj h)
        simp only [charListLeb, if_neg hcd, if_neg hdc, decide_eq_true_eq]
        omega

/-- transitivity of the key comparison. -/
theorem charListLeb_trans : ∀ a b c, charListLeb a b = true → charListLeb b c = true →
    charListLeb a c = true := by
  intro a
  induction a with
  | nil => intro b c _ _; rfl
  | cons x xs ih =>
    intro b c hab hbc
    cases b with
    | nil => exact absurd hab (by simp [charListLeb])
    | cons y ys =>
      cases c with
      | nil => exact absurd hbc (by simp [charListLeb])
      | cons z zs =>
        by_cases hxy : x = y <;> by_cases hyz : y = z
        · subst hxy; subst hyz
          simp only [charListLeb, if_pos rfl] at hab hbc ⊢
          exact ih ys zs hab hbc
        · subst hxy
          simp only [charListLeb, if_pos rfl, if_neg hyz] at hbc ⊢
          exact hbc
        · subst hyz
          simp only [charListLeb, if_pos rfl, if_neg hxy] at hab ⊢
          exact hab
        · simp only [charListLeb, if_neg hxy, if_neg hyz, decide_eq_true_eq] at hab hbc
          have hxz : x.toNat ≠ z.toNat := by omega
          have hxz' : x ≠ z := fun h => hxz (congrArg Char.toNat h)
          simp only [charListLeb, if_neg hxz', decide_eq_true_eq]
          omega

/-- antisymmetry of the key comparison. -/
theorem charListLeb_antisymm : ∀ a b, charListLeb a b = true → charListLeb b a = true →
    a = b := by
  intro a
  induction a with
  | nil =>
    intro b _ hba
    cases b with
    | nil => rfl
    | cons d ds => exact absurd hba (by simp [charListLeb])
  | cons c cs ih =>
    intro b hab hba
    cases b with
    | nil => exact absurd hab (by simp [charListLeb])
    | cons d ds =>
      by_cases hcd : c = d
      · subst hcd
        simp only [charListLeb, if_pos rfl] at hab hba
        rw [ih ds hab hba]
      · have hdc : d ≠ c := fun h => hcd h.symm
        simp only [charListLeb, if_neg hcd, if_neg hdc, decide_eq_true_eq] at hab hba
        omega

/-- antisymmetry transported to strings. -/
theorem strLeb_antisymm {a b : String} (h1 : strLeb a b = true) (h2 : strLeb b a = true) :
    a = b := by
  cases a
  cases b
  exact congrArg String.mk (charListLeb_antisymm _ _ h1 h2)

/-- sorting by key sends permuted pair lists with duplicate-free keys to the
same list. -/
theorem sortQueryPairs_perm_eq (q₁ q₂ : List (String × String))
    (hperm : List.Perm q₁ q₂) (hnodup : (q₁.map Prod.fst).Nodup) :
    sortQueryPairs q₁ = sortQueryPairs q₂ := by
  haveI ht : IsTotal (String × String) (fun p p' => strLeb p.1 p'.1 = true) :=
    ⟨fun a b => charListLeb_total a.1.data b.1.data⟩
  haveI htr : IsTrans (String × String) (fun p p' => strLeb p.1 p'.1 = true) :=
    ⟨fun a b c h h' => charListLeb_trans a.1.data b.1.data c.1.data h h'⟩
  haveI ha : IsAntisymm (String × String)
      (fun p p' => strLeb p.1 p'.1 = true ∧ p.1 ≠ p'.1) :=
    ⟨fun a b h h' => absurd (strLeb_antisymm h.1 h'.1) h.2⟩
  have hnodup₂ : (q₂.map Prod.fst).Nodup := (hperm.map Prod.fst).nodup hnodup
  have key : ∀ (q : List (String × String)), (q.map Prod.fst).Nodup →
      List.Sorted (fun p p' => strLeb p.1 p'.1 = true ∧ p.1 ≠ p'.1) (sortQueryPairs q) := by
    intro q hq
    have hsorted : List.Sorted (fun p p' => strLeb p.1 p'.1 = true) (sortQueryPairs q) :=
      List.sorted_insertionSort _ q
    have hq' : ((sortQueryPairs q).map Prod.fst).Nodup :=
      (((List.perm_insertionSort _ q).map Prod.fst).symm).nodup hq
    have hne : (sortQueryPairs q).Pairwise (fun p p' => p.1 ≠ p'.1) :=
      List.pairwise_map.mp hq'
    exact hsorted.and hne
  exact List.eq_of_perm_of_sorted
    (((List.perm_insertionSort _ q₁).trans hperm).trans (List.perm_insertionSort _ q₂).symm)
    (key q₁ hnodup) (key q₂ hnodup₂)

/-- C5, counterexample: the default key generator joins unescaped `k=v`
pairs with `&`, so values containing `&` or `=` collide.  The two queries
below have the same parameter names `a`, `b` and differ in the value of
each parameter, yet they produce the same cache key
`cache:GET:/x?a=1&b=2&b=3` — refuting "requests that differ in the value
of at least one query parameter produce different cache keys". -/
theorem defaultKeyGeneratorCollision :
    ([("a", "1&b=2"), ("b", "3")] : List (String × String))
      ≠ [("a", "1"), ("b", "2&b=3")]
    ∧ defaultKeyGenerator "GET" "/x" [("a", "1&b=2"), ("b", "3")] true false none
      = defaultKeyGenerator "GET" "/x" [("a", "1"), ("b", "2&b=3")] true false none := by
  exact ⟨by decide, by decide⟩

/-- C5, amended: with query parameters included, two requests with the same
method, path and identically-valued query parameters in any orders produce
the same cache key (the generator sorts keys); but requests differing in a
parameter value need not produce different keys — the unescaped join admits
collisions (see the counterexample). -/
theorem defaultKeyGeneratorOrderIndependent (method path : String)
    (q₁ q₂ : List (String × String)) (includeUserId : Bool) (userId : Option String)
    (hperm : List.Perm q₁ q₂) (hnodup : (q₁.map Prod.fst).Nodup) :
    defaultKeyGenerator method path q₁ true includeUserId userId
    = defaultKeyGenerator method path q₂ true includeUserId userId := by
  have hsort := sortQueryPairs_perm_eq q₁ q₂ hperm hnodup
  have hempty : q₁.isEmpty = q₂.isEmpty := by
    have hlen := hperm.length_eq
    cases q₁ <;> cases q₂ <;> simp_all
  simp [defaultKeyGenerator, hsort, hempty]

/-- C5, witness for the amended theorem at a concrete input: the same two
query parameters in the two possible orders. -/
theorem defaultKeyGeneratorOrderIndependent_witness :
    List.Perm ([("b", "2"), ("a", "1")] : List (String × String)) [("a", "1"), ("b", "2")]
    ∧ ((([("b", "2"), ("a", "1")] : List (String × String)).map Prod.fst).Nodup)
    ∧ defaultKeyGenerator "GET" "/courses" [("b", "2"), ("a", "1")] true false none
      = defaultKeyGenerator "GET" "/courses" [("a", "1"), ("b", "2")] true false none :=
  ⟨List.Perm.swap ("a", "1") ("b", "2") [], by decide,
    defaultKeyGeneratorOrderIndependent "GET" "/courses" _ _ false none
      (List.Perm.swap ("a", "1") ("b", "2") []) (by decide)⟩

/-- incrementing an absent key with a nonzero TTL creates the counter at 1
with expiry now + ttl. -/
theorem increment_fresh (s : Store) (k : String) (w t : Nat)
    (h : getEntry s k = none) (hw : w ≠ 0) :
    CacheService.increment true s k (some w) t
    = (1, setKey s k ⟨.jnum 1, some (t + w)⟩) := by
  have hwb : (w != 0) = true := by simpa [bne_iff_ne] using hw
  simp [CacheService.increment, liveEntry, h, hwb, setKey_setKey]

/-- incrementing a live integer counter (count not reaching 1) bumps the
value and keeps the existing expiry. -/
theorem increment_live (s : Store) (k : String) (w t e : Nat) (n : Int)
    (h : getEntry s k = some ⟨.jnum n, some e⟩) (ht : t < e) (hn : ¬ n + 1 = 1) :
    CacheService.increment true s k (some w) t
    = (n + 1, setKey s k ⟨.jnum (n + 1), some e⟩) := by
  have hnb : ((n + 1 : Int) == 1) = false := by simpa [beq_eq_false_iff_ne] using hn
  simp [CacheService.increment, liveEntry, h, entryLive, ht, hnb]

/-- the TTL of a live key with an expiry is the time remaining. -/
theorem ttl_live (s : Store) (k : String) (t e : Nat) (v : JVal)
    (h : getEntry s k = some ⟨v, some e⟩) (ht : t < e) :
    CacheService.ttl true s k t = (e : Int) - (t : Int) := by
  simp [CacheService.ttl, liveEntry, h, entryLive, ht]

/-- first request of a window: counter created at 1, request allowed. -/
theorem advancedRateLimit_fresh (s : Store) (k : String) (limit w t : Nat)
    (h : getEntry s k = none) (hw : w ≠ 0) (hl : 1 ≤ limit) :
    advancedRateLimit true s k limit w t
    = (⟨true, 1, (limit : Int) - 1, none⟩, setKey s k ⟨.jnum 1, some (t + w)⟩) := by
  have hc : ¬((1 : Int) > (limit : Int)) := by omega
  have hm : max 0 ((limit : Int) - 1) = (limit : Int) - 1 := max_eq_right (by omega)
  simp [advancedRateLimit, increment_fresh s k w t h hw, hc, hm]

/-- later request within the window and within the limit: allowed. -/
theorem advancedRateLimit_live_allowed (s : Store) (k : String)
    (limit w t e : Nat) (n : Int)
    (h : getEntry s k = some ⟨.jnum n, some e⟩) (ht : t < e)
    (hn : ¬ n + 1 = 1) (hok : n + 1 ≤ (limit : Int)) :
    advancedRateLimit true s k limit w t
    = (⟨true, n + 1, (limit : Int) - (n + 1), none⟩,
       setKey s k ⟨.jnum (n + 1), some e⟩) := by
  have hc : ¬(n + 1 > (limit : Int)) := by omega
  have hm : max 0 ((limit : Int) - (n + 1)) = (limit : Int) - (n + 1) :=
    max_eq_right (by omega)
  simp [advancedRateLimit, increment_live s k w t e n h ht hn, hc, hm]

/-- later request within the window but over the limit: blocked with
`Retry-After` equal to the counter's remaining TTL. -/
theorem advancedRateLimit_live_blocked (s : Store) (k : String)
    (limit w t e : Nat) (n : Int)
    (h : getEntry s k = some ⟨.jnum n, some e⟩) (ht : t < e)
    (hn : ¬ n + 1 = 1) (hover : (limit : Int) < n + 1) :
    advancedRateLimit true s k limit w t
    = (⟨false, n + 1, max 0 ((limit : Int) - (n + 1)), some ((e : Int) - (t : Int))⟩,
       setKey s k ⟨.jnum (n + 1), some e⟩) := by
  have httl : CacheService.ttl true (setKey s k ⟨.jnum (n + 1), some e⟩) k t
      = (e : Int) - (t : Int) :=
    ttl_live _ _ _ _ _ (getEntry_setKey_same s k _) ht
  have hra : (0 : Int) < (e : Int) - (t : Int) := by omega
  simp [advancedRateLimit, increment_live s k w t e n h ht hn, hover, httl, hra]

/-- C7: six requests from the same scope within one 60-second window of a
limit-5 limiter: the first five are allowed (passed downstream) with
remaining = max(0, 5 − count) = 4,3,2,1,0, the sixth is blocked (429) with
remaining 0 and a positive `Retry-After` of at most 60 seconds (the
counter's live TTL). -/
theorem rateLimiterBlocksSixthRequest (s : Store) (key : String)
    (t1 t2 t3 t4 t5 t6 : Nat)
    (h0 : getEntry s key = none)
    (h12 : t1 ≤ t2) (h23 : t2 ≤ t3) (h34 : t3 ≤ t4) (h45 : t4 ≤ t5) (h56 : t5 ≤ t6)
    (hwin : t6 < t1 + 60) :
    (rlSeq s key 5 60 [t1, t2, t3, t4, t5, t6]).1
      = [⟨true, 1, 4, none⟩, ⟨true, 2, 3, none⟩, ⟨true, 3, 2, none⟩,
         ⟨true, 4, 1, none⟩, ⟨true, 5, 0, none⟩,
         ⟨false, 6, 0, some (((t1 + 60 : Nat) : Int) - (t6 : Int))⟩]
    ∧ (0 : Int) < ((t1 + 60 : Nat) : Int) - (t6 : Int)
    ∧ ((t1 + 60 : Nat) : Int) - (t6 : Int) ≤ 60 := by
  have e1 : advancedRateLimit true s key 5 60 t1
      = (⟨true, 1, 4, none⟩, setKey s key ⟨.jnum 1, some (t1 + 60)⟩) := by
    rw [advancedRateLimit_fresh s key 5 60 t1 h0 (by omega) (by omega)]
    norm_num
  have e2 : advancedRateLimit true (setKey s key ⟨.jnum 1, some (t1 + 60)⟩) key 5 60 t2
      = (⟨true, 2, 3, none⟩, setKey s key ⟨.jnum 2, some (t1 + 60)⟩) := by
    rw [advancedRateLimit_live_allowed _ key 5 60 t2 (t1 + 60) 1
      (getEntry_setKey_same s key _) (by omega) (by norm_num) (by norm_num)]
    rw [setKey_setKey]
    norm_num
  have e3 : advancedRateLimit true (setKey s key ⟨.jnum 2, some (t1 + 60)⟩) key 5 60 t3
      = (⟨true, 3, 2, none⟩, setKey s key ⟨.jnum 3, some (t1 + 60)⟩) := by
    rw [advancedRateLimit_live_allowed _ key 5 60 t3 (t1 + 60) 2
      (getEntry_setKey_same s key _) (by omega) (by norm_num) (by norm_num)]
    rw [setKey_setKey]
    norm_num
  have e4 : advancedRateLimit true (setKey s key ⟨.jnum 3, some (t1 + 60)⟩) key 5 60 t4
      = (⟨true, 4, 1, none⟩, setKey s key ⟨.jnum 4, some (t1 + 60)⟩) := by
    rw [advancedRateLimit_live_allowed _ key 5 60 t4 (t1 + 60) 3
      (getEntry_setKey_same s key _) (by omega) (by norm_num) (by norm_num)]
    rw [setKey_setKey]
    norm_num
  have e5 : advancedRateLimit true (setKey s key ⟨.jnum 4, some (t1 + 60)⟩) key 5 60 t5
      = (⟨true, 5, 0, none⟩, setKey s key ⟨.jnum 5, some (t1 + 60)⟩) := by
    rw [advancedRateLimit_live_allowed _ key 5 60 t5 (t1 + 60) 4
      (getEntry_setKey_same s key _) (by omega) (by norm_num) (by norm_num)]
    rw [setKey_setKey]
    norm_num
  have e6 : advancedRateLimit true (setKey s key ⟨.jnum 5, some (t1 + 60)⟩) key 5 60 t6
      = (⟨false, 6, 0, some (((t1 + 60 : Nat) : Int) - (t6 : Int))⟩,
         setKey s key ⟨.jnum 6, some (t1 + 60)⟩) := by
    rw [advancedRateLimit_live_blocked _ key 5 60 t6 (t1 + 60) 5
      (getEntry_setKey_same s key _) (by omega) (by norm_num) (by norm_num)]
    rw [setKey_setKey]
    norm_num
  refine ⟨?_, by omega, by omega⟩
  simp only [rlSeq, e1, e2, e3, e4, e5, e6]

/-- C7, witness at a concrete input: six immediate requests on a fresh
store. -/
theorem rateLimiterBlocksSixthRequest_witness :
    getEntry ([] : Store) "k" = none
    ∧ ((rlSeq [] "k" 5 60 [0, 0, 0, 0, 0, 0]).1
        = [⟨true, 1, 4, none⟩, ⟨true, 2, 3, none⟩, ⟨true, 3, 2, none⟩,
           ⟨true, 4, 1, none⟩, ⟨true, 5, 0, none⟩,
           ⟨false, 6, 0, some (((0 + 60 : Nat) : Int) - ((0 : Nat) : Int))⟩]
      ∧ (0 : Int) < ((0 + 60 : Nat) : Int) - ((0 : Nat) : Int)
      ∧ ((0 + 60 : Nat) : Int) - ((0 : Nat) : Int) ≤ 60) :=
  ⟨rfl, rateLimiterBlocksSixthRequest [] "k" 0 0 0 0 0 0 rfl
    (by decide) (by decide) (by decide) (by decide) (by decide) (by decide)⟩
